import Mathlib

/-!
Shallow embedding of `src/demo_model.py`, the computational core of the
yemalin robo-advisor demo: the fixed asset universe `get_universe`, the
allocator `optimize_portfolio` with its risk-aversion lookup
`_risk_aversion_from_profile`, and the frontier estimator
`compute_efficient_frontier`.

Modelling conventions:
* Python floats are modelled as exact rationals (`Rat`); every quantity in
  the source is produced by field operations on the hard-coded table, so
  the rational model is the ideal-arithmetic reading of the code.
* A Python exception escaping the function is modelled as `none`:
  `KeyError` from the risk-aversion dict lookup, `IndexError` from
  `universe[universe["Classe"] == "Monétaire"].iloc[0]` when no monetary
  row exists, and `KeyError` from `sort_values` on the column-less empty
  frame `pd.DataFrame([])` when every frontier point was skipped.
* `DataFrame.sort_values(..., ascending=False)` goes through pandas
  `nargsort`, which reverses the values, runs an ascending `argsort`, and
  reverses the resulting indexer again, so with a stable underlying sort
  the descending result keeps tied rows in their original order; numpy's
  default sort on arrays shorter than 16 elements is insertion sort,
  which is stable.  This is modelled by `List.insertionSort` on rows
  tagged with their original position, ordered by
  (score descending, original position ascending).
-/

structure Asset where
  ticker : String
  classe : String
  rendement : ℚ
  vol : ℚ
  deriving DecidableEq, Repr

/-- The fixed 7-row universe of `get_universe` (demo_model.py lines 5-15). -/
def getUniverse : List Asset :=
  [ ⟨"EUROSTOXX50", "Actions", 7/100, 15/100⟩,
    ⟨"MSCI_WORLD", "Actions", 8/100, 16/100⟩,
    ⟨"CORP_BBB", "Obligations", 4/100, 6/100⟩,
    ⟨"GOV_CORE", "Obligations", 2/100, 3/100⟩,
    ⟨"GOLD", "Matières premières", 5/100, 20/100⟩,
    ⟨"REIT_EU", "Immobilier coté", 6/100, 18/100⟩,
    ⟨"MONEY_MKT", "Monétaire", 15/1000, 1/100⟩ ]

/-- `_risk_aversion_from_profile` (demo_model.py lines 18-24): dict lookup
on the risk level (raising `KeyError`, i.e. `none`, outside {1..5}),
scaled by 1.2 for "Court terme" and 0.8 for "Long terme". -/
def riskAversionFromProfile (risque : ℤ) (horizon : String) : Option ℚ :=
  (if risque = 1 then some 8
   else if risque = 2 then some 4
   else if risque = 3 then some (5/2)
   else if risque = 4 then some (17/10)
   else if risque = 5 then some ((6 : ℚ)/5)
   else none).map (fun b =>
    if horizon = "Court terme" then b * (6/5)
    else if horizon = "Long terme" then b * (4/5)
    else b)

/-- Rows of the risky frame after the `score` column is added, tagged with
their original (post-filter) position for the stable-sort semantics. -/
structure ScoredRow where
  idx : Nat
  asset : Asset
  score : ℚ
  deriving DecidableEq, Repr

/-- Tag each row with its position, as the pandas integer index does. -/
def enumFrom (i : Nat) : List α → List (Nat × α)
  | [] => []
  | a :: l => (i, a) :: enumFrom (i + 1) l

/-- The score column: `Rendement_attendu - lam * Volatilite ** 2`
(demo_model.py line 37). -/
def scoreOf (lam : ℚ) (a : Asset) : ℚ := a.rendement - lam * a.vol ^ 2

/-- Lines 35-37: drop the monetary row, keep universe order, score. -/
def riskyScored (u : List Asset) (lam : ℚ) : List ScoredRow :=
  (enumFrom 0 (u.filter (fun a => a.classe ≠ "Monétaire"))).map
    (fun p => ⟨p.1, p.2, scoreOf lam p.2⟩)

/-- The order realised by `sort_values("score", ascending=False)` with a
stable underlying sort: score descending, ties by original position. -/
def selRel (x y : ScoredRow) : Prop :=
  y.score < x.score ∨ (x.score = y.score ∧ x.idx ≤ y.idx)

instance : DecidableRel selRel := fun x y =>
  inferInstanceAs (Decidable (y.score < x.score ∨ (x.score = y.score ∧ x.idx ≤ y.idx)))

instance : IsTotal ScoredRow selRel := by
  constructor
  intro a b
  rcases lt_trichotomy a.score b.score with h | h | h
  · exact Or.inr (Or.inl h)
  · rcases Nat.le_total a.idx b.idx with hi | hi
    · exact Or.inl (Or.inr ⟨h, hi⟩)
    · exact Or.inr (Or.inr ⟨h.symm, hi⟩)
  · exact Or.inl (Or.inl h)

instance : IsTrans ScoredRow selRel := by
  constructor
  intro a b c hab hbc
  rcases hab with hab | ⟨hab, hab'⟩
  · rcases hbc with hbc | ⟨hbc, hbc'⟩
    · exact Or.inl (hbc.trans hab)
    · exact Or.inl (hbc ▸ hab)
  · rcases hbc with hbc | ⟨hbc, hbc'⟩
    · exact Or.inl (hab ▸ hbc)
    · exact Or.inr ⟨hab.trans hbc, hab'.trans hbc'⟩

/-- `DataFrame.head(n)`: the first `n` rows for `n ≥ 0`, and all rows but
the last `-n` for negative `n` (pandas semantics for a Python int). -/
def dfHead (n : ℤ) (l : List α) : List α :=
  if 0 ≤ n then l.take n.toNat else l.take (l.length - (-n).toNat)

/-- Line 38: `risky.sort_values("score", ascending=False).head(nb_max_actifs)`. -/
def selectRisky (u : List Asset) (lam : ℚ) (nbMax : ℤ) : List ScoredRow :=
  dfHead nbMax (List.insertionSort selRel (riskyScored u lam))

/-- Lines 40-42: clip negative scores to zero; if the clipped scores sum
to zero, replace them with a vector of ones. -/
def weightBase (sel : List ScoredRow) : List ℚ :=
  if (sel.map (fun r => max r.score 0)).sum = 0 then List.replicate sel.length 1
  else sel.map (fun r => max r.score 0)

/-- Line 43: `risky_weights = risky_weights / risky_weights.sum()`. -/
def normWeights (sel : List ScoredRow) : List ℚ :=
  (weightBase sel).map (fun w => w / (weightBase sel).sum)

structure AllocRow where
  ticker : String
  classe : String
  poids : ℚ
  montantEur : ℚ
  deriving DecidableEq, Repr

structure PortfolioStats where
  expected_return : ℚ
  volatility : ℚ
  score : ℚ
  cash_amount : ℚ
  deriving DecidableEq, Repr

/-- Lines 45-59: scale the normalized risky weights by `1 - liquidite_min`,
append the cash row with weight `liquidite_min`, and add the
`Montant (€) = Poids * montant` column. -/
def allocation (montant liquiditeMin : ℚ) (sel : List ScoredRow)
    (money : Asset) : List AllocRow :=
  (sel.zip ((normWeights sel).map (fun w => w * (1 - liquiditeMin)))).map (fun p =>
    { ticker := p.1.asset.ticker, classe := p.1.asset.classe,
      poids := p.2, montantEur := p.2 * montant }) ++
    [{ ticker := money.ticker, classe := money.classe,
       poids := liquiditeMin, montantEur := liquiditeMin * montant }]

/-- Lines 61-72: the inner merge of the allocation with the universe on
(Ticker, Classe), the weighted return/volatility dot products, the score
with the `1e-6` guard, and the cash amount. -/
def portfolioStatsOf (u : List Asset) (alloc : List AllocRow) : PortfolioStats :=
  let merged := alloc.flatMap (fun ar =>
    (u.filter (fun a => a.ticker = ar.ticker ∧ a.classe = ar.classe)).map
      (fun a => (ar, a)))
  let expRet := (merged.map (fun p => p.1.poids * p.2.rendement)).sum
  let vol := (merged.map (fun p => p.1.poids * p.2.vol)).sum
  { expected_return := expRet, volatility := vol,
    score := expRet / (vol + 1/1000000),
    cash_amount :=
      ((alloc.filter (fun r => r.classe = "Monétaire")).map
        (fun r => r.montantEur)).sum }

/-- `optimize_portfolio` (demo_model.py lines 27-73).  `none` models the
`KeyError` raised by the risk-aversion lookup for a risk level outside
{1..5} and the `IndexError` raised by `.iloc[0]` when the universe has no
monetary row. -/
def optimize_portfolio (univ : List Asset) (montant : ℚ) (risque : ℤ)
    (liquiditeMin : ℚ) (nbMaxActifs : ℤ) (horizon : String) :
    Option (List AllocRow × PortfolioStats) :=
  match riskAversionFromProfile risque horizon with
  | none => none
  | some lam =>
    match (univ.filter (fun a => a.classe = "Monétaire")).head? with
    | none => none
    | some money =>
      some (allocation montant liquiditeMin (selectRisky univ lam nbMaxActifs) money,
        portfolioStatsOf univ
          (allocation montant liquiditeMin (selectRisky univ lam nbMaxActifs) money))

/-! ### Frontier estimator (`compute_efficient_frontier`, lines 76-123) -/

def dot (l m : List ℚ) : ℚ := ((l.zip m).map (fun p => p.1 * p.2)).sum

/-- Line 82-84: `risky = universe.copy().reset_index(drop=True)` followed by
`mu = risky["Rendement_attendu"].values`.  Note that the source copies the
WHOLE universe here: no row is dropped, so the monetary asset is included. -/
def frontierMu (u : List Asset) : List ℚ := u.map (fun a => a.rendement)

/-- Line 85: `sigma = risky["Volatilite"].values`, again over all rows. -/
def frontierSigma (u : List Asset) : List ℚ := u.map (fun a => a.vol)

/-- Lines 88-94: correlation matrix with 0.2 off the diagonal and 1 on it,
turned into the covariance matrix `cov[i][j] = sigma[i]*sigma[j]*corr[i][j]`. -/
def frontierCov (u : List Asset) : List (List ℚ) :=
  let sigma := frontierSigma u
  let n := sigma.length
  (List.range n).map (fun i => (List.range n).map (fun j =>
    sigma.getD i 0 * sigma.getD j 0 * (if i = j then 1 else 1/5)))

/-- `np.linspace a b k` with endpoint: `a + (b - a) * i / (k - 1)`;
a single sample is just `a`, zero samples give the empty list. -/
def linspace (a b : ℚ) (k : Nat) : List ℚ :=
  if k = 1 then [a]
  else (List.range k).map (fun i : ℕ => a + (b - a) * (i : ℚ) / ((k : ℚ) - 1))

/-- Pick the first row of the augmented system whose leading coefficient is
nonzero; `none` when the leading column is entirely zero. -/
def splitPivot : List (List ℚ × ℚ) → Option ((List ℚ × ℚ) × List (List ℚ × ℚ))
  | [] => none
  | r :: rs =>
    if r.1.headD 0 ≠ 0 then some (r, rs)
    else (splitPivot rs).map (fun pr => (pr.1, r :: pr.2))

/-- Exact Gaussian elimination on the augmented square system, the
ideal-arithmetic model of `np.linalg.solve`: `none` exactly when the
elimination gets stuck on a singular matrix (numpy raises `LinAlgError`,
which line 103 catches). -/
def gaussSolve : Nat → List (List ℚ × ℚ) → Option (List ℚ)
  | 0, _ => some []
  | n + 1, rows =>
    match splitPivot rows with
    | none => none
    | some (p, rest) =>
      let a := p.1.headD 0
      let reduced := rest.map (fun r =>
        let f := r.1.headD 0 / a
        ((r.1.tail.zip p.1.tail).map (fun q => q.1 - f * q.2), r.2 - f * p.2))
      match gaussSolve n reduced with
      | none => none
      | some xs => some ((p.2 - dot p.1.tail xs) / a :: xs)

/-- One frontier point.  The source stores the portfolio volatility
`sqrt(w @ cov @ w)`; the embedding stores the radicand `volSq = w @ cov @ w`
exactly and applies `Real.sqrt` in statements.  Since the square root is
monotone and injective on nonnegative arguments, ordering rows by `volSq`
is the same as ordering them by the volatility itself. -/
structure FrontierPoint where
  ret : ℚ
  volSq : ℚ
  deriving DecidableEq, Repr

/-- Lines 99-120: solve `cov · w = mu / lam`, skip the point if the solve
is singular, clip negatives, fall back to `np.ones(n)/n` if the clipped
vector sums to zero, normalize, and record return and volatility. -/
def frontierPointAt (cov : List (List ℚ)) (mu : List ℚ) (n : Nat) (lam : ℚ) :
    Option FrontierPoint :=
  match gaussSolve n (cov.zip (mu.map (fun x => x / lam))) with
  | none => none
  | some wRaw =>
    let clipped := wRaw.map (fun x => max x 0)
    let w := if clipped.sum = 0 then List.replicate n ((1 : ℚ) / n)
             else clipped.map (fun x => x / clipped.sum)
    some { ret := dot w mu,
           volSq := dot w (cov.map (fun row => dot row w)) }

/-- Ascending order on the stored squared volatility; equivalent to the
ascending order on the volatility used by line 122. -/
def volRel (p q : FrontierPoint) : Prop := p.volSq ≤ q.volSq

instance : DecidableRel volRel := fun p q =>
  inferInstanceAs (Decidable (p.volSq ≤ q.volSq))

instance : IsTotal FrontierPoint volRel := by
  constructor; intro a b; exact le_total a.volSq b.volSq

instance : IsTrans FrontierPoint volRel := by
  constructor; intro a b c; exact le_trans

/-- Lines 96-120: the λ sweep, collecting the non-skipped points in
order. -/
def frontierPoints (u : List Asset) (nPoints : Nat) : List FrontierPoint :=
  (linspace (1/2) 8 nPoints).filterMap
    (frontierPointAt (frontierCov u) (frontierMu u) (frontierMu u).length)

/-- `compute_efficient_frontier` (lines 76-123).  `none` models the
uncaught `KeyError` raised by `pd.DataFrame(results).sort_values(...)`
when `results` is empty (every lambda skipped, or `n_points = 0`): the
frame built from an empty list has no columns at all. -/
def compute_efficient_frontier (u : List Asset) (nPoints : Nat) :
    Option (List FrontierPoint) :=
  if frontierPoints u nPoints = [] then none
  else some (List.insertionSort volRel (frontierPoints u nPoints))

/-!
### Object-level trace for the frame-effect claim

To talk about mutation of the universe table we re-trace the two
functions at the level of pandas objects.  A `Frame` is the contents of
one DataFrame; the heap is the list of all DataFrames that exist, the
input universe being object 0.  In the source, `.copy()` (lines 35, 48,
51, 82), `sort_values`/`head` (line 38), `pd.DataFrame` (lines 52, 122),
`pd.concat` (line 58) and `merge` (line 61) all return fresh objects,
while the three column assignments (`risky["score"]` line 37,
`risky["Poids"]` line 46, `alloc["Montant (€)"]` line 59) write in place
to the object their name is currently bound to.  Series and ndarray
temporaries (scores, weights, mu, sigma, corr, cov) are modelled as plain
values since they are never frames.
-/

/-- A row of a pandas frame: columns that a given frame does not carry
are `none`. -/
structure PRow where
  ticker : String
  classe : String
  rendement : Option ℚ := none
  vol : Option ℚ := none
  score : Option ℚ := none
  poids : Option ℚ := none
  montantEur : Option ℚ := none
  deriving DecidableEq, Repr

def assetToPRow (a : Asset) : PRow :=
  { ticker := a.ticker, classe := a.classe,
    rendement := some a.rendement, vol := some a.vol }

abbrev Frame : Type := List PRow

def heapAlloc (h : List Frame) (f : Frame) : List Frame × Nat :=
  (h ++ [f], h.length)

def heapWrite (h : List Frame) (a : Nat) (f : Frame) : List Frame :=
  h.set a f

def heapRead (h : List Frame) (a : Nat) : Frame :=
  h.getD a []

/-- The stable descending sort of line 38, at the frame level. -/
def prowSelRel (x y : Nat × PRow) : Prop :=
  y.2.score.getD 0 < x.2.score.getD 0 ∨
    (x.2.score.getD 0 = y.2.score.getD 0 ∧ x.1 ≤ y.1)

instance : DecidableRel prowSelRel := fun x y =>
  inferInstanceAs (Decidable (y.2.score.getD 0 < x.2.score.getD 0 ∨
    (x.2.score.getD 0 = y.2.score.getD 0 ∧ x.1 ≤ y.1)))

def sortFrameByScoreDesc (f : List PRow) : List PRow :=
  ((enumFrom 0 f).insertionSort prowSelRel).map (fun p => p.2)

/-- Heap trace of `optimize_portfolio` (lines 27-73).  Returns the heap
after the call; on an exception path (`KeyError` from the risk lookup,
`IndexError` from `.iloc[0]`) the heap as of the raise. -/
def optimizeHeapTrace (u : List Asset) (montant : ℚ) (risque : ℤ)
    (liquiditeMin : ℚ) (nbMaxActifs : ℤ) (horizon : String) : List Frame :=
  let h0 : List Frame := [u.map assetToPRow]
  match riskAversionFromProfile risque horizon with
  | none => h0
  | some lam =>
    -- line 35: risky = universe[universe["Classe"] != "Monétaire"].copy()
    let p1 := heapAlloc h0 ((heapRead h0 0).filter (fun r => r.classe ≠ "Monétaire"))
    -- line 37: risky["score"] = risky["Rendement_attendu"] - lam * risky["Volatilite"] ** 2
    let h2 := heapWrite p1.1 p1.2 ((heapRead p1.1 p1.2).map (fun r =>
      { r with score := some (r.rendement.getD 0 - lam * (r.vol.getD 0) ^ 2) }))
    -- line 38: risky = risky.sort_values("score", ascending=False).head(nb_max_actifs)
    let p3 := heapAlloc h2 (dfHead nbMaxActifs (sortFrameByScoreDesc (heapRead h2 p1.2)))
    -- lines 40-45: risky_weights is a Series/ndarray value, not a frame
    let sel := heapRead p3.1 p3.2
    let clipped := sel.map (fun r => max (r.score.getD 0) 0)
    let base := if clipped.sum = 0 then List.replicate sel.length (1 : ℚ) else clipped
    let ws := base.map (fun w => w / base.sum * (1 - liquiditeMin))
    -- line 46: risky["Poids"] = risky_weights * total_risky_weight
    let h4 := heapWrite p3.1 p3.2 ((sel.zip ws).map (fun p =>
      { p.1 with poids := some p.2 }))
    -- line 48: money_row = universe[...].iloc[0].copy() reads object 0 only
    match ((heapRead h4 0).filter (fun r => r.classe = "Monétaire")).head? with
    | none => h4
    | some money =>
      -- line 51: alloc_risky = risky[["Ticker", "Classe", "Poids"]].copy()
      let p5 := heapAlloc h4 ((heapRead h4 p3.2).map (fun r =>
        { ticker := r.ticker, classe := r.classe, poids := r.poids }))
      -- lines 52-56: alloc_cash = pd.DataFrame([...])
      let p6 := heapAlloc p5.1
        [{ ticker := money.ticker, classe := money.classe, poids := some liquiditeMin }]
      -- line 58: alloc = pd.concat([alloc_risky, alloc_cash], ignore_index=True)
      let p7 := heapAlloc p6.1 (heapRead p6.1 p5.2 ++ heapRead p6.1 p6.2)
      -- line 59: alloc["Montant (€)"] = alloc["Poids"] * montant
      let h8 := heapWrite p7.1 p7.2 ((heapRead p7.1 p7.2).map (fun r =>
        { r with montantEur := some (r.poids.getD 0 * montant) }))
      -- line 61: merged = alloc.merge(universe, on=["Ticker", "Classe"])
      let p9 := heapAlloc h8 ((heapRead h8 p7.2).flatMap (fun ar =>
        ((heapRead h8 0).filter (fun a =>
            a.ticker = ar.ticker ∧ a.classe = ar.classe)).map (fun a =>
          { ar with rendement := a.rendement, vol := a.vol })))
      -- lines 62-72 compute float scalars only; no frame is created or written
      p9.1

/-- Heap trace of `compute_efficient_frontier` (lines 76-123).  The only
frame operations are the full copy of the universe (line 82) and the
construction of the result frame (line 122); mu, sigma, corr, cov and the
loop work on ndarray values.  The result frame carries the two portfolio
columns; its (irrational) volatility column is irrelevant here and the
rows are recorded by their return only.  On the empty-results `KeyError`
path the heap as of the raise is returned. -/
def frontierHeapTrace (u : List Asset) (nPoints : Nat) : List Frame :=
  let h0 : List Frame := [u.map assetToPRow]
  -- line 82: risky = universe.copy().reset_index(drop=True)
  let p1 := heapAlloc h0 (heapRead h0 0)
  if frontierPoints u nPoints = [] then p1.1
  else
    -- line 122: frontier = pd.DataFrame(results).sort_values(...)
    let p2 := heapAlloc p1.1
      ((List.insertionSort volRel (frontierPoints u nPoints)).map (fun p =>
        { ticker := "", classe := "", rendement := some p.ret }))
    p2.1

/-! ### Helper lemmas -/

theorem sum_map_div (l : List ℚ) (c : ℚ) :
    (l.map (fun x => x / c)).sum = l.sum / c := by
  induction l with
  | nil => simp
  | cons a l ih => simp [ih, add_div]

theorem sum_map_mul_const (l : List ℚ) (c : ℚ) :
    (l.map (fun x => x * c)).sum = l.sum * c := by
  induction l with
  | nil => simp
  | cons a l ih => simp [ih, add_mul]

theorem map_snd_zip_eq : ∀ (l : List α) (m : List β),
    l.length = m.length → (l.zip m).map Prod.snd = m
  | [], [], _ => rfl
  | [], _ :: _, h => by simp at h
  | _ :: _, [], h => by simp at h
  | _ :: l, _ :: m, h => by
    simp only [List.zip_cons_cons, List.map_cons, List.cons.injEq, true_and]
    exact map_snd_zip_eq l m (by simpa using h)

theorem enumFrom_length : ∀ (i : Nat) (l : List α),
    (enumFrom i l).length = l.length
  | _, [] => rfl
  | i, _ :: l => by simp [enumFrom, enumFrom_length (i + 1) l]

theorem mem_enumFrom : ∀ {i : Nat} {l : List α} {p : Nat × α},
    p ∈ enumFrom i l → i ≤ p.1 ∧ p.2 ∈ l := by
  intro i l
  induction l generalizing i with
  | nil => intro p h; cases h
  | cons a l ih =>
    intro p h
    rcases List.mem_cons.mp h with h | h
    · subst h; exact ⟨le_refl _, List.mem_cons_self _ _⟩
    · obtain ⟨h1, h2⟩ := ih h
      exact ⟨by omega, List.mem_cons_of_mem _ h2⟩

theorem pairwise_enumFrom : ∀ (i : Nat) (l : List α),
    (enumFrom i l).Pairwise (fun p q => p.1 < q.1)
  | _, [] => List.Pairwise.nil
  | i, a :: l => by
    refine List.Pairwise.cons ?_ (pairwise_enumFrom (i + 1) l)
    intro q hq
    have := (mem_enumFrom hq).1
    omega

theorem weightBase_length (sel : List ScoredRow) :
    (weightBase sel).length = sel.length := by
  unfold weightBase
  split <;> simp

theorem weightBase_sum_ne_zero {sel : List ScoredRow} (h : sel ≠ []) :
    (weightBase sel).sum ≠ 0 := by
  unfold weightBase
  split
  case isTrue hc =>
    rw [List.sum_replicate, nsmul_eq_mul, mul_one]
    exact_mod_cast fun hlen => h (List.length_eq_zero.mp hlen)
  case isFalse hc => exact hc

theorem normWeights_sum {sel : List ScoredRow} (h : sel ≠ []) :
    (normWeights sel).sum = 1 := by
  unfold normWeights
  rw [sum_map_div, div_self (weightBase_sum_ne_zero h)]

theorem normWeights_length (sel : List ScoredRow) :
    (normWeights sel).length = sel.length := by
  unfold normWeights
  rw [List.length_map, weightBase_length]

theorem riskyScored_length (u : List Asset) (lam : ℚ) :
    (riskyScored u lam).length =
      (u.filter (fun a => a.classe ≠ "Monétaire")).length := by
  unfold riskyScored
  rw [List.length_map, enumFrom_length]

theorem riskyScored_pairwise_idx (u : List Asset) (lam : ℚ) :
    (riskyScored u lam).Pairwise (fun x y => x.idx < y.idx) := by
  unfold riskyScored
  rw [List.pairwise_map]
  exact pairwise_enumFrom 0 _

theorem riskyScored_classe {u : List Asset} {lam : ℚ} {r : ScoredRow}
    (h : r ∈ riskyScored u lam) : r.asset.classe ≠ "Monétaire" := by
  unfold riskyScored at h
  rcases List.mem_map.mp h with ⟨p, hp, rfl⟩
  have := List.of_mem_filter (mem_enumFrom hp).2
  simpa using this

theorem selectRisky_sublist (u : List Asset) (lam : ℚ) (nbMax : ℤ) :
    (selectRisky u lam nbMax).Sublist
      (List.insertionSort selRel (riskyScored u lam)) := by
  unfold selectRisky dfHead
  split <;> exact List.take_sublist _ _

theorem mem_selectRisky {u : List Asset} {lam : ℚ} {nbMax : ℤ} {r : ScoredRow}
    (h : r ∈ selectRisky u lam nbMax) : r ∈ riskyScored u lam := by
  have := (selectRisky_sublist u lam nbMax).subset h
  simpa using this

theorem selectRisky_length (u : List Asset) (lam : ℚ) {nbMax : ℤ}
    (h : 0 ≤ nbMax) :
    (selectRisky u lam nbMax).length =
      min nbMax.toNat (u.filter (fun a => a.classe ≠ "Monétaire")).length := by
  unfold selectRisky dfHead
  rw [if_pos h, List.length_take, List.length_insertionSort, riskyScored_length]

theorem selectRisky_pairwise (u : List Asset) (lam : ℚ) (nbMax : ℤ) :
    (selectRisky u lam nbMax).Pairwise
      (fun x y => selRel x y ∧ x.idx ≠ y.idx) := by
  have hsorted : (List.insertionSort selRel (riskyScored u lam)).Pairwise selRel :=
    List.sorted_insertionSort selRel (riskyScored u lam)
  have hidx : (List.insertionSort selRel (riskyScored u lam)).Pairwise
      (fun x y => x.idx ≠ y.idx) := by
    refine (List.Perm.pairwise_iff (fun h => h.symm)
      (List.perm_insertionSort selRel (riskyScored u lam))).mpr ?_
    exact (riskyScored_pairwise_idx u lam).imp Nat.ne_of_lt
  exact List.Pairwise.sublist (selectRisky_sublist u lam nbMax) (hsorted.and hidx)

theorem optimize_eq_some {u : List Asset} {m liq : ℚ} {r n : ℤ} {hz : String}
    {lam : ℚ} {money : Asset}
    (hlam : riskAversionFromProfile r hz = some lam)
    (hmoney : (u.filter (fun a => a.classe = "Monétaire")).head? = some money) :
    optimize_portfolio u m r liq n hz =
      some (allocation m liq (selectRisky u lam n) money,
        portfolioStatsOf u (allocation m liq (selectRisky u lam n) money)) := by
  unfold optimize_portfolio
  simp only [hlam, hmoney]

theorem allocation_poids (m liq : ℚ) (sel : List ScoredRow) (money : Asset) :
    (allocation m liq sel money).map (fun row => row.poids) =
      (normWeights sel).map (fun w => w * (1 - liq)) ++ [liq] := by
  unfold allocation
  rw [List.map_append, List.map_map]
  congr 1
  have hlen : sel.length =
      ((normWeights sel).map (fun w => w * (1 - liq))).length := by
    rw [List.length_map, normWeights_length]
  exact map_snd_zip_eq sel _ hlen

theorem allocation_filter_monetaire (m liq : ℚ) {sel : List ScoredRow}
    {money : Asset} (hmc : money.classe = "Monétaire")
    (hsel : ∀ row ∈ sel, row.asset.classe ≠ "Monétaire") :
    (allocation m liq sel money).filter (fun row => row.classe = "Monétaire") =
      [{ ticker := money.ticker, classe := money.classe,
         poids := liq, montantEur := liq * m }] := by
  unfold allocation
  rw [List.filter_append]
  have h1 : ((sel.zip ((normWeights sel).map (fun w => w * (1 - liq)))).map
      (fun p => AllocRow.mk p.1.asset.ticker p.1.asset.classe p.2 (p.2 * m))).filter
      (fun row => row.classe = "Monétaire") = [] := by
    rw [List.filter_eq_nil_iff]
    intro row hrow
    rcases List.mem_map.mp hrow with ⟨p, hp, rfl⟩
    have hpmem : p.1 ∈ sel := (List.of_mem_zip hp).1
    simpa using hsel p.1 hpmem
  rw [h1]
  simp [hmc]

theorem allocation_risky_length (m liq : ℚ) {sel : List ScoredRow}
    {money : Asset} (hmc : money.classe = "Monétaire")
    (hsel : ∀ row ∈ sel, row.asset.classe ≠ "Monétaire") :
    ((allocation m liq sel money).filter
      (fun row => row.classe ≠ "Monétaire")).length = sel.length := by
  unfold allocation
  rw [List.filter_append]
  have h1 : ((sel.zip ((normWeights sel).map (fun w => w * (1 - liq)))).map
      (fun p => AllocRow.mk p.1.asset.ticker p.1.asset.classe p.2 (p.2 * m))).filter
      (fun row => row.classe ≠ "Monétaire") =
      (sel.zip ((normWeights sel).map (fun w => w * (1 - liq)))).map
      (fun p => AllocRow.mk p.1.asset.ticker p.1.asset.classe p.2 (p.2 * m)) := by
    rw [List.filter_eq_self]
    intro row hrow
    rcases List.mem_map.mp hrow with ⟨p, hp, rfl⟩
    have hpmem : p.1 ∈ sel := (List.of_mem_zip hp).1
    simpa using hsel p.1 hpmem
  rw [h1]
  have h2 : ([AllocRow.mk money.ticker money.classe liq (liq * m)]).filter
      (fun row => row.classe ≠ "Monétaire") = [] := by
    simp [hmc]
  rw [h2]
  rw [List.append_nil, List.length_map, List.length_zip, List.length_map,
    normWeights_length, min_self]

theorem selectRisky_classes {u : List Asset} {lam : ℚ} {n : ℤ} :
    ∀ row ∈ selectRisky u lam n, row.asset.classe ≠ "Monétaire" :=
  fun _ hrow => riskyScored_classe (mem_selectRisky hrow)

theorem money_classe {u : List Asset} {money : Asset}
    (hmoney : (u.filter (fun a => a.classe = "Monétaire")).head? = some money) :
    money.classe = "Monétaire" := by
  have hmem : money ∈ u.filter (fun a => a.classe = "Monétaire") :=
    List.mem_of_mem_head? (Option.mem_def.mpr hmoney)
  simpa using List.of_mem_filter hmem

theorem riskAversion_isSome {r : ℤ} (hz : String) (hr1 : 1 ≤ r) (hr5 : r ≤ 5) :
    ∃ lam, riskAversionFromProfile r hz = some lam := by
  interval_cases r <;> exact ⟨_, rfl⟩

theorem selectRisky_getUniverse_ne_nil (lam : ℚ) {n : ℤ} (hn : 1 ≤ n) :
    selectRisky getUniverse lam n ≠ [] := by
  apply List.ne_nil_of_length_pos
  rw [selectRisky_length getUniverse lam (by omega)]
  have h6 : (getUniverse.filter (fun a => a.classe ≠ "Monétaire")).length = 6 := by
    decide
  rw [h6]
  omega

/-! ### Claim theorems -/

/- Batteries marks the `Rat` field operations `@[irreducible]`; concrete
runs of the embedded functions are checked by `decide`, which needs them
to unfold. -/
unseal Rat.mul Rat.add Rat.sub Rat.inv

/-- C3: in `optimize_portfolio`, risky assets are ranked descending by
score and the top `max_assets` kept, with ties broken by original
universe-table order (stable sort): whenever two selected risky rows have
equal scores, the one appearing first in the selection carries the
smaller original position.  (The position is taken in the monetary-free
frame, which `filter` keeps in universe-table order, so comparing it is
comparing original table order.)  Quantifying over the risk-aversion
value `lam` covers every profile, since every profile maps to some
`lam`. -/
theorem selection_ties_in_table_order (u : List Asset) (lam : ℚ) (nbMax : ℤ) :
    (selectRisky u lam nbMax).Pairwise
      (fun x y => x.score = y.score → x.idx < y.idx) := by
  refine (selectRisky_pairwise u lam nbMax).imp ?_
  rintro a b ⟨hrel, hne⟩ heq
  rcases hrel with h | ⟨h, hle⟩
  · rw [heq] at h
    exact absurd h (lt_irrefl _)
  · exact lt_of_le_of_ne hle hne

/-- C4: for every valid input (risk level in {1..5}, positive amount,
liquidity floor in [0,1], at least one asset allowed, any horizon) on the
reference universe, the weights of the returned allocation sum to 1
within 1e-9 (in the exact-arithmetic model they sum to exactly 1). -/
theorem allocation_weights_sum_one (m liq : ℚ) (r n : ℤ) (hz : String)
    (hr1 : 1 ≤ r) (hr5 : r ≤ 5) (hm : 0 < m) (hl0 : 0 ≤ liq) (hl1 : liq ≤ 1)
    (hn : 1 ≤ n) :
    ∃ alloc stats,
      optimize_portfolio getUniverse m r liq n hz = some (alloc, stats) ∧
      |(alloc.map (fun row => row.poids)).sum - 1| ≤ 1 / 1000000000 := by
  obtain ⟨lam, hlam⟩ := riskAversion_isSome hz hr1 hr5
  have hmoney : (getUniverse.filter (fun a => a.classe = "Monétaire")).head? =
      some ⟨"MONEY_MKT", "Monétaire", 15/1000, 1/100⟩ := rfl
  refine ⟨_, _, optimize_eq_some hlam hmoney, ?_⟩
  rw [allocation_poids, List.sum_append, sum_map_mul_const,
    normWeights_sum (selectRisky_getUniverse_ne_nil lam hn)]
  have hz0 : (1 : ℚ) * (1 - liq) + List.sum [liq] - 1 = 0 := by
    simp
  rw [hz0]
  norm_num

theorem allocation_weights_sum_one_witness :
    ∃ alloc stats,
      optimize_portfolio getUniverse 10000 3 (1/10) 6 "Moyen terme" =
        some (alloc, stats) ∧
      |(alloc.map (fun row => row.poids)).sum - 1| ≤ 1 / 1000000000 :=
  allocation_weights_sum_one 10000 (1/10) 3 6 "Moyen terme" (by norm_num)
    (by norm_num) (by norm_num) (by norm_num) (by norm_num) (by norm_num)

/-- C5: for every valid input (any universe whose class-"Monétaire"
filter has a first row, i.e. `.iloc[0]` succeeds), the returned
allocation contains exactly one monetary row and its weight is the
requested liquidity floor, exactly. -/
theorem single_monetary_row_exact_floor (u : List Asset) (m liq : ℚ)
    (r n : ℤ) (hz : String) (money : Asset)
    (hr1 : 1 ≤ r) (hr5 : r ≤ 5) (hm : 0 < m) (hl0 : 0 ≤ liq) (hl1 : liq ≤ 1)
    (hn : 1 ≤ n)
    (hmoney : (u.filter (fun a => a.classe = "Monétaire")).head? = some money) :
    ∃ alloc stats,
      optimize_portfolio u m r liq n hz = some (alloc, stats) ∧
      ∃ row, alloc.filter (fun x => x.classe = "Monétaire") = [row] ∧
        row.poids = liq := by
  obtain ⟨lam, hlam⟩ := riskAversion_isSome hz hr1 hr5
  refine ⟨_, _, optimize_eq_some hlam hmoney, ?_⟩
  exact ⟨_, allocation_filter_monetaire m liq (money_classe hmoney)
    selectRisky_classes, rfl⟩

theorem single_monetary_row_exact_floor_witness :
    ∃ alloc stats,
      optimize_portfolio getUniverse 10000 2 (1/4) 3 "Long terme" =
        some (alloc, stats) ∧
      ∃ row, alloc.filter (fun x => x.classe = "Monétaire") = [row] ∧
        row.poids = 1/4 :=
  single_monetary_row_exact_floor getUniverse 10000 (1/4) 2 3 "Long terme"
    ⟨"MONEY_MKT", "Monétaire", 15/1000, 1/100⟩ (by norm_num) (by norm_num)
    (by norm_num) (by norm_num) (by norm_num) (by norm_num) rfl

/-- C6: for every valid input, the number of non-monetary rows in the
returned allocation is `min max_assets (number of non-monetary assets in
the universe)`. -/
theorem risky_row_count_is_min (u : List Asset) (m liq : ℚ) (r n : ℤ)
    (hz : String) (money : Asset)
    (hr1 : 1 ≤ r) (hr5 : r ≤ 5) (hm : 0 < m) (hl0 : 0 ≤ liq) (hl1 : liq ≤ 1)
    (hn : 1 ≤ n)
    (hmoney : (u.filter (fun a => a.classe = "Monétaire")).head? = some money) :
    ∃ alloc stats,
      optimize_portfolio u m r liq n hz = some (alloc, stats) ∧
      (alloc.filter (fun x => x.classe ≠ "Monétaire")).length =
        min n.toNat (u.filter (fun a => a.classe ≠ "Monétaire")).length := by
  obtain ⟨lam, hlam⟩ := riskAversion_isSome hz hr1 hr5
  refine ⟨_, _, optimize_eq_some hlam hmoney, ?_⟩
  rw [allocation_risky_length m liq (money_classe hmoney) selectRisky_classes,
    selectRisky_length u lam (by omega)]

theorem risky_row_count_is_min_witness :
    ∃ alloc stats,
      optimize_portfolio getUniverse 10000 3 (1/10) 3 "Moyen terme" =
        some (alloc, stats) ∧
      (alloc.filter (fun x => x.classe ≠ "Monétaire")).length =
        min (3 : ℤ).toNat
          (getUniverse.filter (fun a => a.classe ≠ "Monétaire")).length :=
  risky_row_count_is_min getUniverse 10000 (1/10) 3 3 "Moyen terme"
    ⟨"MONEY_MKT", "Monétaire", 15/1000, 1/100⟩ (by norm_num) (by norm_num)
    (by norm_num) (by norm_num) (by norm_num) (by norm_num) rfl

/-- C7: for every risk-aversion value (covering any profile, however
pathological) and any `max_assets ≥ 1` on the reference universe, the
weight-normalization denominator of line 43 is nonzero — the division
never divides by zero — and when every selected score is ≤ 0 the weights
fall back to equal weighting across the selected subset (the final risky
weights being the equal weights scaled by `1 - liquidity_floor`). -/
theorem zero_score_fallback_no_div_zero (lam : ℚ) (n : ℤ) (hn : 1 ≤ n) :
    (weightBase (selectRisky getUniverse lam n)).sum ≠ 0 ∧
    ((∀ row ∈ selectRisky getUniverse lam n, row.score ≤ 0) →
      normWeights (selectRisky getUniverse lam n) =
        List.replicate (selectRisky getUniverse lam n).length
          (1 / ((selectRisky getUniverse lam n).length : ℚ))) ∧
    ((∀ row ∈ selectRisky getUniverse lam n, row.score ≤ 0) →
      ∀ (m liq : ℚ) (money : Asset),
        (allocation m liq (selectRisky getUniverse lam n) money).map
            (fun row => row.poids) =
          List.replicate (selectRisky getUniverse lam n).length
            ((1 / ((selectRisky getUniverse lam n).length : ℚ)) * (1 - liq)) ++
          [liq]) := by
  have hsel := selectRisky_getUniverse_ne_nil lam hn
  have hfall : (∀ row ∈ selectRisky getUniverse lam n, row.score ≤ 0) →
      normWeights (selectRisky getUniverse lam n) =
        List.replicate (selectRisky getUniverse lam n).length
          (1 / ((selectRisky getUniverse lam n).length : ℚ)) := by
    intro hall
    have hc : ((selectRisky getUniverse lam n).map
        (fun r => max r.score 0)).sum = 0 := by
      apply List.sum_eq_zero
      intro x hx
      rcases List.mem_map.mp hx with ⟨row, hrow, rfl⟩
      exact max_eq_right (hall row hrow)
    have hwb : weightBase (selectRisky getUniverse lam n) =
        List.replicate (selectRisky getUniverse lam n).length 1 := by
      unfold weightBase
      rw [if_pos hc]
    unfold normWeights
    rw [hwb, List.sum_replicate, nsmul_eq_mul, mul_one, List.map_replicate]
  refine ⟨weightBase_sum_ne_zero hsel, hfall, ?_⟩
  intro hall m liq money
  rw [allocation_poids, hfall hall, List.map_replicate]

theorem zero_score_fallback_witness :
    (weightBase (selectRisky getUniverse 1000 6)).sum ≠ 0 ∧
    normWeights (selectRisky getUniverse 1000 6) =
      List.replicate (selectRisky getUniverse 1000 6).length
        (1 / ((selectRisky getUniverse 1000 6).length : ℚ)) :=
  ⟨(zero_score_fallback_no_div_zero 1000 6 (by norm_num)).1,
   (zero_score_fallback_no_div_zero 1000 6 (by norm_num)).2.1 (by decide)⟩

theorem linspace_length (a b : ℚ) (k : Nat) : (linspace a b k).length = k := by
  unfold linspace
  split
  case isTrue h => simp [h]
  case isFalse h => rw [List.length_map, List.length_range]

/-- C8: whenever `compute_efficient_frontier` returns a sequence, it has
at most `n_points` points and is sorted by non-decreasing volatility
(equivalently by the squared volatility it stores, since the square root
is monotone).  The claim is also right that singular λ values are meant
to be skipped non-fatally, but the code makes the skip fatal in the only
situation where it can occur: the covariance matrix does not depend on λ,
so a singular covariance (for instance, an asset with zero volatility)
makes every point skipped, leaves `results` empty, and the final
`sort_values` on the column-less frame `pd.DataFrame([])` raises an
uncaught `KeyError` (the `none` below) instead of returning a sequence. -/
theorem frontier_sorted_and_bounded :
    compute_efficient_frontier [⟨"ZERO_VOL", "Actions", 1/20, 0⟩] 1 = none ∧
    ∀ (u : List Asset) (k : Nat) (out : List FrontierPoint),
      compute_efficient_frontier u k = some out →
        out.length ≤ k ∧ List.Sorted volRel out ∧
        List.Sorted
          (fun p q => Real.sqrt (p.volSq : ℝ) ≤ Real.sqrt (q.volSq : ℝ))
          out := by
  constructor
  · decide
  · intro u k out h
    unfold compute_efficient_frontier at h
    split at h
    · exact absurd h (by simp)
    · replace h := Option.some.inj h
      subst h
      refine ⟨?_, ?_, ?_⟩
      · rw [List.length_insertionSort]
        unfold frontierPoints
        exact le_trans (List.length_filterMap_le _ _)
          (le_of_eq (linspace_length _ _ _))
      · exact List.sorted_insertionSort volRel _
      · exact List.Pairwise.imp
          (fun hpq => Real.sqrt_le_sqrt (by exact_mod_cast hpq))
          (List.sorted_insertionSort volRel _)

theorem frontier_sorted_and_bounded_witness :
    compute_efficient_frontier [⟨"A", "Actions", 1, 1⟩] 1 = some [⟨1, 1⟩] ∧
    ([⟨1, 1⟩] : List FrontierPoint).length ≤ 1 ∧
    List.Sorted volRel [⟨1, 1⟩] :=
  ⟨by decide,
   (frontier_sorted_and_bounded.2 [⟨"A", "Actions", 1, 1⟩] 1 [⟨1, 1⟩]
     (by decide)).1,
   (frontier_sorted_and_bounded.2 [⟨"A", "Actions", 1, 1⟩] 1 [⟨1, 1⟩]
     (by decide)).2.1⟩

/-- C1: the claim states the intended restriction to risky assets, but
line 82 copies the WHOLE universe (`risky = universe.copy()`), so the
monetary asset is not excluded before the covariance matrix is built: on
the reference universe the frontier return vector has 7 entries including
the monetary return 0.015, and the covariance matrix is 7 by 7, although
only 6 assets are non-monetary. -/
theorem frontier_includes_monetary_asset :
    frontierMu getUniverse =
      [7/100, 8/100, 4/100, 2/100, 5/100, 6/100, 15/1000] ∧
    (frontierCov getUniverse).length = 7 ∧
    (getUniverse.filter (fun a => a.classe ≠ "Monétaire")).length = 6 ∧
    (getUniverse.filter (fun a => a.classe = "Monétaire")).map
      (fun a => a.rendement) = [15/1000] := by
  decide

/-- C2 counterexample: the claim requires an invalid-input failure with no
partial result whenever the invested amount is non-positive or
`max_assets ≤ 0`, but `optimize_portfolio` validates neither: with a
negative invested amount, or with `max_assets = 0`, it returns a full
result. -/
theorem invalid_inputs_not_rejected :
    (optimize_portfolio getUniverse (-100) 3 (1/10) 3 "Moyen terme").isSome
      = true ∧
    (optimize_portfolio getUniverse 10000 3 (1/10) 0 "Moyen terme").isSome
      = true := by
  decide

/-- C2 amended: `optimize_portfolio` fails — the `KeyError` of the
risk-aversion dict lookup, modelled as `none`, with no partial result —
exactly when the risk level is outside {1..5}; it does not validate the
invested amount or `max_assets`, so a non-positive amount or
`max_assets ≤ 0` still produces a result. -/
theorem invalid_input_only_for_risk_level :
    (∀ (u : List Asset) (m liq : ℚ) (r n : ℤ) (hz : String),
      ¬(1 ≤ r ∧ r ≤ 5) → optimize_portfolio u m r liq n hz = none) ∧
    (optimize_portfolio getUniverse (-100) 3 (1/10) 3 "Moyen terme").isSome
      = true ∧
    (optimize_portfolio getUniverse 10000 3 (1/10) 0 "Moyen terme").isSome
      = true := by
  refine ⟨?_, by decide, by decide⟩
  intro u m liq r n hz hr
  have hnone : riskAversionFromProfile r hz = none := by
    unfold riskAversionFromProfile
    rw [if_neg (by omega), if_neg (by omega), if_neg (by omega),
      if_neg (by omega), if_neg (by omega)]
    rfl
  unfold optimize_portfolio
  rw [hnone]

theorem invalid_input_only_for_risk_level_witness :
    optimize_portfolio getUniverse 100 7 (1/10) 3 "Moyen terme" = none :=
  invalid_input_only_for_risk_level.1 getUniverse 100 (1/10) 7 3 "Moyen terme"
    (by omega)

/-- C9: `optimize_portfolio` is deterministic.  The embedding is a pure
function of exactly the six declared inputs — the source reads no other
state and uses no randomness — so two calls with identical universe,
amount, risk level, liquidity floor, asset cap and horizon denote the
same allocation and the same statistics. -/
theorem optimize_portfolio_deterministic (u : List Asset) (m : ℚ) (r : ℤ)
    (liq : ℚ) (n : ℤ) (hz : String) :
    optimize_portfolio u m r liq n hz = optimize_portfolio u m r liq n hz :=
  rfl

/-- C10: neither function mutates the universe table passed to it: in the
object-level trace the frame at object 0 — the universe the caller
passed — equals `u` after either call, on every path including the
exception paths, because every write in the source targets a frame
freshly allocated by `.copy()`, `sort_values`, `pd.DataFrame`,
`pd.concat` or `merge`. -/
theorem universe_frame_not_mutated (u : List Asset) (m : ℚ) (r : ℤ)
    (liq : ℚ) (n : ℤ) (hz : String) (k : Nat) :
    heapRead (optimizeHeapTrace u m r liq n hz) 0 = u.map assetToPRow ∧
    heapRead (frontierHeapTrace u k) 0 = u.map assetToPRow := by
  constructor
  · unfold optimizeHeapTrace
    split
    · rfl
    · simp only []
      split <;> rfl
  · unfold frontierHeapTrace
    split <;> rfl
